import Mathlib

/-!
Verification development for the AgentForge workflow execution engine
(src/backend/src/services/agentExecutor.ts and the node handler modules).

The embedding models JavaScript values as an inductive type `JsValue`,
execution contexts as JS objects, and the walker as an explicitly
fuelled state passing function.  JavaScript numbers are modelled as
exact decimals `n / 10 ^ e`: the engine only ever compares numbers that
come from decimal literals or context values, so the exact decimal
order coincides with the machine float order on this fragment.
Exponent, hexadecimal and Infinity literal forms of the JavaScript
`Number` conversion are outside the modelled fragment and are never
exercised by the workflows considered here.
-/

/-- A JavaScript value as it can appear in an execution context:
`undefined`, `null`, booleans, numbers (`num n e` denotes `n / 10 ^ e`),
strings, and plain objects (ordered association lists, first binding wins). -/
inductive JsValue where
  | undefined
  | null
  | bool (b : Bool)
  | num (n : Int) (e : Nat)
  | str (s : String)
  | obj (fields : List (String × JsValue))

/-- Equality of two exact decimals `n1 / 10 ^ e1` and `n2 / 10 ^ e2`
by cross multiplication. -/
def decNumEq (n1 : Int) (e1 : Nat) (n2 : Int) (e2 : Nat) : Bool :=
  n1 * (10 : Int) ^ e2 == n2 * (10 : Int) ^ e1

/-- Strict order on exact decimals by cross multiplication. -/
def decNumLt (n1 : Int) (e1 : Nat) (n2 : Int) (e2 : Nat) : Bool :=
  n1 * (10 : Int) ^ e2 < n2 * (10 : Int) ^ e1

/-- Log entry of an Execution record: `{ level, message }` (the optional
`data` payload is not inspected by any claim and is not modelled). -/
structure LogEntry where
  level : String
  message : String

/-- JS whitespace test on the ASCII fragment (space, tab, CR, LF). -/
def isJsSpace (c : Char) : Bool := c.isWhitespace

/-- `String.prototype.trim`, modelled on the character list. -/
def jsTrim (s : String) : String :=
  ⟨((s.data.dropWhile isJsSpace).reverse.dropWhile isJsSpace).reverse⟩

/-- Worker for `jsSplit`: splits a character list on a non empty separator,
left to right, non overlapping, with an explicit fuel that is always called
with the length of the list (kept structural so the kernel can evaluate it). -/
def splitChars (sep : List Char) : Nat → List Char → List Char → List (List Char)
  | _, [], acc => [acc.reverse]
  | 0, l, acc => [acc.reverse ++ l]
  | fuel + 1, c :: rest, acc =>
    if sep.isPrefixOf (c :: rest) then
      acc.reverse :: splitChars sep fuel ((c :: rest).drop sep.length) []
    else
      splitChars sep fuel rest (c :: acc)

/-- `String.prototype.split` with a non empty string separator. -/
def jsSplit (s sep : String) : List String :=
  (splitChars sep.data s.data.length s.data []).map (fun l => ⟨l⟩)

/-- `String.prototype.includes` for a non empty search string: the split
produces at least two parts exactly when the separator occurs. -/
def jsIncludes (s sub : String) : Bool :=
  2 ≤ (jsSplit s sub).length

/-- Value of a list of decimal digit characters. -/
def decDigitsVal (l : List Char) : Nat :=
  l.foldl (fun a c => a * 10 + (c.toNat - 48)) 0

/-- The JavaScript `Number(string)` conversion on the decimal literal
fragment: trims whitespace, the empty string converts to `0`, an optional
sign followed by decimal digits with an optional fractional part converts
to the denoted exact decimal, everything else is NaN (`none`). -/
def jsNumber? (s : String) : Option (Int × Nat) :=
  let t := (jsTrim s).data
  if t.isEmpty then some (0, 0)
  else
    let sgnRest : Int × List Char :=
      match t with
      | c :: r => if c == '-' then (-1, r) else if c == '+' then (1, r) else (1, t)
      | [] => (1, t)
    let rest := sgnRest.2
    let ip := rest.takeWhile (fun c => c.toNat != 46)
    let tail := rest.drop ip.length
    match tail with
    | [] =>
      if !ip.isEmpty && ip.all Char.isDigit then
        some (sgnRest.1 * (decDigitsVal ip : Int), 0)
      else none
    | _ :: fp =>
      if ip.all Char.isDigit && fp.all Char.isDigit && !(ip.isEmpty && fp.isEmpty) then
        some (sgnRest.1 * ((decDigitsVal ip : Int) * (10 : Int) ^ fp.length + (decDigitsVal fp : Int)), fp.length)
      else none

/-- JavaScript ToPrimitive on the values of the model: a plain object
converts to the string `[object Object]`; every other value is already
primitive. -/
def toPrim : JsValue → JsValue
  | .obj _ => .str "[object Object]"
  | v => v

/-- JavaScript ToNumber on primitive values (`undefined` is NaN, `null`
is `0`, booleans are `0` or `1`, strings go through `Number(string)`);
an object would first convert to `[object Object]`, which is not numeric. -/
def toNumber? : JsValue → Option (Int × Nat)
  | .undefined => none
  | .null => some (0, 0)
  | .bool b => some (if b then 1 else 0, 0)
  | .num n e => some (n, e)
  | .str s => jsNumber? s
  | .obj _ => none

/-- JavaScript loose equality `==` on primitive values (both arguments
already passed through `toPrim`). -/
def looseEqPrim : JsValue → JsValue → Bool
  | .undefined, .undefined => true
  | .undefined, .null => true
  | .null, .undefined => true
  | .null, .null => true
  | .undefined, _ => false
  | _, .undefined => false
  | .null, _ => false
  | _, .null => false
  | .num a ae, .num b be => decNumEq a ae b be
  | .str a, .str b => a == b
  | .bool a, .bool b => a == b
  | .num a ae, .str s =>
    match jsNumber? s with
    | some bv => decNumEq a ae bv.1 bv.2
    | none => false
  | .str s, .num b be =>
    match jsNumber? s with
    | some av => decNumEq av.1 av.2 b be
    | none => false
  | .bool a, .num b be => decNumEq (if a then 1 else 0) 0 b be
  | .num a ae, .bool b => decNumEq a ae (if b then 1 else 0) 0
  | .bool a, .str s =>
    match jsNumber? s with
    | some v => decNumEq (if a then 1 else 0) 0 v.1 v.2
    | none => false
  | .str s, .bool b =>
    match jsNumber? s with
    | some v => decNumEq v.1 v.2 (if b then 1 else 0) 0
    | none => false
  | _, _ => false

/-- JavaScript loose equality `==` between a context value and a parsed
literal. -/
def looseEq (a b : JsValue) : Bool :=
  looseEqPrim (toPrim a) (toPrim b)

/-- The JavaScript abstract relational comparison `a < b`: two strings
compare lexicographically, otherwise both sides go through ToNumber and
`none` records a NaN comparison (which makes every ordering operator
return false). -/
def jsLess? (a b : JsValue) : Option Bool :=
  match toPrim a, toPrim b with
  | .str x, .str y => some (decide (x < y))
  | x, y =>
    match toNumber? x, toNumber? y with
    | some p, some q => some (decNumLt p.1 p.2 q.1 q.2)
    | _, _ => none

/-- `compareValues` of agentExecutor.ts (lines 337 to 347): the switch on the
operator string, with JavaScript comparison semantics and `false` for an
unknown operator. -/
def compareValues (left right : JsValue) (operator : String) : Bool :=
  match operator with
  | "==" => looseEq left right
  | "!=" => !(looseEq left right)
  | ">" => (jsLess? right left).getD false
  | "<" => (jsLess? left right).getD false
  | ">=" => match jsLess? left right with | some b => !b | none => false
  | "<=" => match jsLess? right left with | some b => !b | none => false
  | _ => false

/-- Property read `value?.[k]` as used by the dotted path walk: objects
look up the first binding of the key, everything else yields `undefined`
(built in properties of primitive values are outside the modelled fragment). -/
def getField : JsValue → String → JsValue
  | .obj fs, k => (((fs.find? (fun p => p.1 == k)).map (fun p => p.2)).getD .undefined)
  | _, _ => .undefined

/-- `getContextValue` of agentExecutor.ts (lines 309 to 319): splits the key
on dots and walks the context with optional chaining. -/
def getContextValue (key : String) (context : JsValue) : JsValue :=
  (jsSplit key ".").foldl getField context

/-- The quote removal of `parseValue`: removes every single and
double quote character, wherever it occurs in the string. -/
def stripQuotes (s : String) : String :=
  ⟨s.data.filter (fun c => !(c == '"' || c.toNat == 39))⟩

/-- `parseValue` of agentExecutor.ts (lines 321 to 335): removes all quote
characters, then returns a number if `Number(value)` is not NaN, else the
booleans for the words true and false, else the remaining string. -/
def parseValue (value : String) : JsValue :=
  match jsNumber? (stripQuotes value) with
  | some q => .num q.1 q.2
  | none =>
    if stripQuotes value == "true" then .bool true
    else if stripQuotes value == "false" then .bool false
    else .str (stripQuotes value)

/-- The operator list of `evaluateSimpleCondition` (line 294), in the order
written in the source. -/
def operators : List String := ["==", "!=", ">", "<", ">=", "<="]

/-- The operator priority order stated by the spec (section 4.3):
`==, !=, >=, <=, >, <`.  Kept only to compare the source behaviour with
the behaviour the spec describes. -/
def specPriorityOperators : List String := ["==", "!=", ">=", "<=", ">", "<"]

/-- `evaluateSimpleCondition` of agentExecutor.ts (lines 291 to 307),
parameterised by the operator list: the first operator of the list that
occurs in the condition wins, the condition is split on every occurrence
of it, and the first two parts become the trimmed left and right operands. -/
def evaluateSimpleConditionWith (ops : List String) (condition : String) (context : JsValue) : Bool :=
  match ops.find? (fun op => jsIncludes condition op) with
  | some op =>
    let parts := (jsSplit condition op).map jsTrim
    let left := parts.headD ""
    let right := (parts.get? 1).getD ""
    compareValues (getContextValue left context) (parseValue right) op
  | none => false

/-- `evaluateSimpleCondition` with the operator list of the source. -/
def evaluateSimpleCondition (condition : String) (context : JsValue) : Bool :=
  evaluateSimpleConditionWith operators condition context

/-- A workflow node as the executor receives it: the declared interface is
`{ id, type, data }`; `extra` carries any further top level fields of the
underlying document (the api call handler reads `node.url`, `node.method`,
`node.body`, `node.headers` from the top level). -/
structure Node where
  id : String
  type : String
  data : JsValue
  extra : List (String × JsValue)

/-- A workflow edge `{ id, source, target }`. -/
structure Edge where
  id : String
  source : String
  target : String

/-- Top level property read on a node document: the declared fields first,
then the untyped extra fields. -/
def topField (n : Node) (k : String) : JsValue :=
  if k == "id" then .str n.id
  else if k == "type" then .str n.type
  else if k == "data" then n.data
  else (((n.extra.find? (fun p => p.1 == k)).map (fun p => p.2)).getD .undefined)

/-- JavaScript truthiness. -/
def truthy : JsValue → Bool
  | .undefined => false
  | .null => false
  | .bool b => b
  | .num n _ => !(n == 0)
  | .str s => !(s == "")
  | .obj _ => true

/-- JavaScript `a || b`. -/
def jsOr (a b : JsValue) : JsValue :=
  if truthy a then a else b

/-- Update of one binding of the fields of an object, preserving its
position, or appending the binding if the key is new. -/
def setKey (fields : List (String × JsValue)) (k : String) (v : JsValue) : List (String × JsValue) :=
  if fields.any (fun p => p.1 == k) then
    fields.map (fun p => if p.1 == k then (k, v) else p)
  else fields ++ [(k, v)]

/-- The object spread `{...context, k: v}` (spreading a primitive yields
no enumerable properties on this fragment, so a non object context starts
from the empty object, as in JavaScript for the values that occur here). -/
def jsSet (o : JsValue) (k : String) (v : JsValue) : JsValue :=
  match o with
  | .obj fs => .obj (setKey fs k v)
  | _ => .obj [(k, v)]

/-- Display conversion used only inside interpolated log message strings
(string values print verbatim, objects as `[object Object]`; the decimal
rendering of numbers is approximated, no claim inspects these messages). -/
def jsDisplay : JsValue → String
  | .undefined => "undefined"
  | .null => "null"
  | .bool b => if b then "true" else "false"
  | .num n _ => toString n
  | .str s => s
  | .obj _ => "[object Object]"

/-- Response of the injected HTTP client capability (what axios resolves
with): `{ status, data, headers }`. -/
structure HttpResp where
  status : Int
  data : JsValue
  headers : JsValue

/-- Request passed to the injected HTTP client capability: the
`{ method, url, data, headers }` argument object of the axios call. -/
structure HttpReq where
  method : JsValue
  url : JsValue
  data : JsValue
  headers : JsValue

/-- The capabilities the handlers use: the HTTP client behind axios, the
optional text generation capability, and the clock reading used for the
timestamps the handlers stamp (their values are never inspected by claims). -/
structure Env where
  client : HttpReq → Except String HttpResp
  gen : Option (String → Except String String)
  now : String

/-- The axios argument object built by `apiCallNode` of src/unnamed/part_001
(lines 5 to 10): the request is described by the top level fields
`node.method || "GET"`, `node.url`, `node.body || {}`, `node.headers || {}`. -/
def apiReqOf (node : Node) : HttpReq :=
  ⟨jsOr (topField node "method") (.str "GET"),
   topField node "url",
   jsOr (topField node "body") (.obj []),
   jsOr (topField node "headers") (.obj [])⟩

/-- `apiCallNode` of src/unnamed/part_001: issues the request through the
injected client; on success returns `{...context, apiResult: res.data}`;
on any error logs to the console and returns the context unchanged. -/
def apiCallNode (client : HttpReq → Except String HttpResp) (node : Node) (context : JsValue) : JsValue :=
  match client (apiReqOf node) with
  | .ok res => jsSet context "apiResult" res.data
  | .error _ => context

/-- Modelled from the spec: the trigger handler module
`./nodes/triggerNode` imported by agentExecutor.ts is not included under
src.  Per spec section 4.2 the trigger handler stamps `triggeredAt`,
`triggerType` and `triggerData` into the context and never fails; the
timestamp is the injected clock reading. -/
def triggerNode (env : Env) (node : Node) (context : JsValue) : JsValue :=
  jsSet (jsSet (jsSet context "triggeredAt" (.str env.now))
      "triggerType" (.str node.type))
    "triggerData" node.data

/-- Modelled from the spec: the condition handler module
`./nodes/conditionNode` imported by agentExecutor.ts is not included under
src.  Per spec sections 4.2 and 4.3 the handler reads
`node.data.{condition, conditionType}` (conditionType defaulting to
simple), delegates a simple condition string to the condition evaluator,
resolves evaluation failures to false, and merges the boolean into the
context as `conditionResult`.  The random placeholder for non simple
condition types is modelled as false (spec section 9 flags it as a
placeholder, and no claim exercises it). -/
def conditionNode (node : Node) (context : JsValue) : JsValue :=
  let condition := getField node.data "condition"
  let simpleType :=
    match getField node.data "conditionType" with
    | .undefined => true
    | .str s => s == "simple"
    | _ => false
  let met :=
    match condition with
    | .str s => if simpleType then evaluateSimpleCondition s context else false
    | _ => false
  jsSet context "conditionResult" (.bool met)

/-- Modelled from the spec: the ai action handler module
`./nodes/aiActionNode` imported by agentExecutor.ts is not included under
src.  Per spec section 4.2, with a generation capability and a prompt the
handler merges a structured `aiResponse` block; on capability absence or
failure it falls back to a deterministic simulation block and never fails
the node. -/
def aiActionNode (env : Env) (node : Node) (context : JsValue) : JsValue :=
  let modelV := jsOr (getField node.data "model") (.str "gemini-pro")
  let simulated :=
    jsSet context "aiResponse"
      (.obj [("engine", .str "simulation"), ("model", modelV),
             ("inputPrompt", getField node.data "prompt"),
             ("output", .str "AI processing simulated."), ("timestamp", .str env.now)])
  match env.gen, getField node.data "prompt" with
  | some g, .str p =>
    match g p with
    | .ok out =>
      jsSet context "aiResponse"
        (.obj [("engine", .str "Gemini"), ("model", modelV),
               ("inputPrompt", .str p),
               ("systemPrompt", getField node.data "systemPrompt"),
               ("output", .str out), ("timestamp", .str env.now)])
    | .error _ => simulated
  | _, _ => simulated

/-- The state of one run that the sink accumulates: the ordered logs and
the ordered result entries of the Execution document (`$push` appends). -/
structure ExecState where
  logs : List LogEntry
  results : List JsValue

/-- Append one log entry (the `log` method; sink failures are swallowed in
the source and the sink is modelled as always succeeding). -/
def pushLog (st : ExecState) (level message : String) : ExecState :=
  ⟨st.logs ++ [⟨level, message⟩], st.results⟩

/-- Append one result entry (the `addResult` method). -/
def pushResult (st : ExecState) (r : JsValue) : ExecState :=
  ⟨st.logs, st.results ++ [r]⟩

/-- Outcome of an awaited step: a value, a thrown JavaScript error, or the
marker that the model fuel ran out (the source recursion has no such bound;
`fuelOut` never corresponds to a JavaScript value and is not catchable). -/
inductive Outcome (α : Type) where
  | ok (a : α)
  | thrown (msg : String)
  | fuelOut

/-- The property read `node.data.label` performed while building the
log message of `executeNode` (line 63): throws a TypeError when
`node.data` is `undefined` or `null`. -/
def getLabel? (n : Node) : Except String JsValue :=
  match n.data with
  | .undefined => .error "Cannot read properties of undefined (reading label)"
  | .null => .error "Cannot read properties of null (reading label)"
  | d => .ok (getField d "label")

/-- The result object pushed by `executeNode` (lines 98 to 103):
`{ nodeId, nodeType, nodeLabel, result }`. -/
def mkResultObj (n : Node) (result : JsValue) : JsValue :=
  .obj [("nodeId", .str n.id), ("nodeType", .str n.type),
        ("nodeLabel", getField n.data "label"), ("result", result)]

/-- The switch of `executeNode` (lines 68 to 94): dispatch on the node type
string to the imported handler modules; unknown types log a warning and
pass the context through. -/
def dispatch (env : Env) (node : Node) (context : JsValue) (st : ExecState) : JsValue × ExecState :=
  match node.type with
  | "trigger" | "scheduleTrigger" | "webhookTrigger" => (triggerNode env node context, st)
  | "apiCall" | "action" => (apiCallNode env.client node context, st)
  | "condition" | "ifElse" => (conditionNode node context, st)
  | "aiProcess" | "aiAction" => (aiActionNode env node context, st)
  | other => (context, pushLog st "warning" ("Unknown node type: " ++ other))

/-- The `for (const edge of nextEdges) await this.executeNode(edge.target, result)`
loop of `executeNode` (lines 106 to 110): every outgoing edge is followed
with the same produced context, return values of the children are
discarded, and a thrown error stops the remaining siblings. -/
def runEdges (step : String → JsValue → ExecState → Outcome JsValue × ExecState) :
    List Edge → JsValue → ExecState → Outcome JsValue × ExecState
  | [], result, st => (.ok result, st)
  | e :: rest, result, st =>
    match step e.target result st with
    | (.ok _, st2) => runEdges step rest result st2
    | (.thrown m, st2) => (.thrown m, st2)
    | (.fuelOut, st2) => (.fuelOut, st2)

/-- `executeNode` of agentExecutor.ts (lines 59 to 113), with an explicit
fuel bounding the recursion depth: look the node up (a missing node
returns the context unchanged, before any log), log, dispatch to the
handler, push the result object, then follow every outgoing edge with the
produced context, and finally return that context. -/
def executeNode (env : Env) (nodes : List Node) (edges : List Edge) :
    Nat → String → JsValue → ExecState → Outcome JsValue × ExecState
  | 0, _, _, st => (.fuelOut, st)
  | fuel + 1, nodeId, context, st =>
    match nodes.find? (fun n => n.id == nodeId) with
    | none => (.ok context, st)
    | some node =>
      match getLabel? node with
      | .error m => (.thrown m, st)
      | .ok lbl =>
        let st1 := pushLog st "info" ("Executing node: " ++ jsDisplay (jsOr lbl (.str node.type)))
        match dispatch env node context st1 with
        | (result, st2) =>
          let st3 := pushResult st2 (mkResultObj node result)
          runEdges (fun t c s => executeNode env nodes edges fuel t c s)
            (edges.filter (fun e => e.source == nodeId)) result st3

/-- Trigger family membership used by `execute` (lines 37 to 39). -/
def isTriggerNode (n : Node) : Bool :=
  n.type == "trigger" || n.type == "scheduleTrigger" || n.type == "webhookTrigger"

/-- The body of `execute` from the trigger on (lines 45 to 51): reading the
trigger label can itself throw, then the walk starts at the trigger id with
the empty context. -/
def runFromTrigger (env : Env) (nodes : List Node) (edges : List Edge) (fuel : Nat)
    (t : Node) (st : ExecState) : Outcome JsValue × ExecState :=
  match getLabel? t with
  | .error m => (.thrown m, st)
  | .ok lbl =>
    let st1 := pushLog st "info" ("Trigger found: " ++ jsDisplay (jsOr lbl (.str t.type)))
    match executeNode env nodes edges fuel t.id (.obj []) st1 with
    | (.ok r, st2) => (.ok r, pushLog st2 "info" "Agent execution completed successfully")
    | (.thrown m, st2) => (.thrown m, st2)
    | (.fuelOut, st2) => (.fuelOut, st2)

/-- The try block of `execute` (lines 33 to 52): find the first trigger
family node in nodes array order; without one, throw the no trigger error. -/
def tryExecute (env : Env) (nodes : List Node) (edges : List Edge) (fuel : Nat)
    (st : ExecState) : Outcome JsValue × ExecState :=
  match nodes.find? isTriggerNode with
  | none => (.thrown "No trigger node found", st)
  | some t => runFromTrigger env nodes edges fuel t st

/-- `execute` of agentExecutor.ts (lines 32 to 57): the starting log, the
try block, and the catch that logs the failure and rethrows the same error. -/
def execute (env : Env) (nodes : List Node) (edges : List Edge) (fuel : Nat)
    (st : ExecState) : Outcome JsValue × ExecState :=
  let st0 := pushLog st "info" "Starting agent execution"
  match tryExecute env nodes edges fuel st0 with
  | (.thrown m, st1) => (.thrown m, pushLog st1 "error" "Agent execution failed")
  | other => other

/-- The Execution record as persisted at the end of a run: terminal status,
terminal error message, and the appended logs and results. -/
structure Execution where
  status : String
  error : Option String
  logs : List LogEntry
  results : List JsValue

/-- One full run of `executeAgentWorkflow`: the outcome surfaced to the
caller, the persisted Execution record, and the chronological list of every
value ever assigned to `execution.status`. -/
structure WorkflowRun where
  outcome : Outcome Unit
  exec : Execution
  statusTrace : List String

/-- `executeAgentWorkflow` of agentExecutor.ts (lines 380 to 419): create
the record with status running, run the executor, then perform the single
terminal transition: on success set completed and return; on a thrown error
set failed, record the message, persist, and rethrow.  If the model fuel
runs out no terminal assignment is reached and the record stays running. -/
def executeAgentWorkflow (env : Env) (fuel : Nat) (nodes : List Node) (edges : List Edge) :
    WorkflowRun :=
  match execute env nodes edges fuel ⟨[], []⟩ with
  | (.ok _, st) => ⟨.ok (), ⟨"completed", none, st.logs, st.results⟩, ["running", "completed"]⟩
  | (.thrown m, st) => ⟨.thrown m, ⟨"failed", some m, st.logs, st.results⟩, ["running", "failed"]⟩
  | (.fuelOut, st) => ⟨.fuelOut, ⟨"running", none, st.logs, st.results⟩, ["running"]⟩

/-- Termination of a run in the fuelled model: some fuel suffices. -/
def workflowTerminates (env : Env) (nodes : List Node) (edges : List Edge) : Prop :=
  ∃ fuel, (executeAgentWorkflow env fuel nodes edges).outcome ≠ Outcome.fuelOut

/-- The number of node visits the walker performs from a node id with the
given fuel: one per found node plus the visits of every edge target
(the edges followed depend only on the graph, never on the context). -/
def visitCount (nodes : List Node) (edges : List Edge) : Nat → String → Nat
  | 0, _ => 0
  | fuel + 1, nodeId =>
    match nodes.find? (fun n => n.id == nodeId) with
    | none => 0
    | some _ =>
      1 + ((edges.filter (fun e => e.source == nodeId)).map
            (fun e => visitCount nodes edges fuel e.target)).sum

/-- Shape of every pushed result entry: an object with exactly the keys
nodeId, nodeType, nodeLabel and result, in this order. -/
def isNodeResultObj : JsValue → Bool
  | .obj [("nodeId", _), ("nodeType", _), ("nodeLabel", _), ("result", _)] => true
  | _ => false

/-- The node ids of the result entries of a run, in append order. -/
def resultNodeIds (w : WorkflowRun) : List JsValue :=
  w.exec.results.map (fun r => getField r "nodeId")

/-- A fixed capability environment for concrete runs: the HTTP client
refuses every request, no generation capability, a fixed clock reading. -/
def envC : Env := ⟨fun _ => .error "ECONNREFUSED", none, "TS0"⟩

/-- An api call node whose url sits inside `node.data` (where the spec
says the handler reads it) and not at the top level. -/
def apiNodeT : Node := ⟨"api1", "apiCall", .obj [("url", .str "http://x")], []⟩

/-- An api call node whose url sits at the top level of the document
(where part_001 actually reads it). -/
def apiNodeTop : Node := ⟨"api2", "apiCall", .obj [], [("url", .str "http://x")]⟩

/-- An HTTP client that answers requests for `http://x` and fails
everything else with a connection error. -/
def client3 : HttpReq → Except String HttpResp := fun req =>
  match req.url with
  | .str u => if u == "http://x" then .ok ⟨200, .str "d", .obj []⟩ else .error "ECONNREFUSED"
  | _ => .error "ECONNREFUSED"

/-- Concrete graph for the condition branching run: a trigger, a condition
node with condition `x == 1` (false on the running context), and two plain
successor nodes attached by two outgoing edges of the condition node. -/
def c2nodes : List Node :=
  [⟨"t", "trigger", .obj [], []⟩,
   ⟨"c", "condition", .obj [("condition", .str "x == 1")], []⟩,
   ⟨"a", "noopA", .obj [], []⟩,
   ⟨"b", "noopB", .obj [], []⟩]

/-- Edges of the condition branching run. -/
def c2edges : List Edge :=
  [⟨"e1", "t", "c"⟩, ⟨"e2", "c", "a"⟩, ⟨"e3", "c", "b"⟩]

/-- A single trigger node graph. -/
def c4nodes : List Node := [⟨"t", "trigger", .obj [], []⟩]

/-- A cyclic graph with exactly one trigger: the trigger feeds a node
with a self loop. -/
def cycNodes : List Node := [⟨"t", "trigger", .obj [], []⟩, ⟨"a", "x", .obj [], []⟩]

/-- Edges of the cyclic graph. -/
def cycEdges : List Edge := [⟨"e1", "t", "a"⟩, ⟨"e2", "a", "a"⟩]

/-- A graph with two trigger family nodes. -/
def c10nodes : List Node :=
  [⟨"n0", "apiCall", .obj [], []⟩,
   ⟨"t1", "trigger", .obj [], []⟩,
   ⟨"t2", "webhookTrigger", .obj [], []⟩]

/-- A node outside the trigger family. -/
def nonTriggerNode : Node := ⟨"n1", "apiCall", .obj [], []⟩

/-! ## Helper lemmas -/

/-- `List.find?` returns the head of the filtered list. -/
theorem find_eq_filter_head {α : Type} (p : α → Bool) (l : List α) :
    l.find? p = (l.filter p).head? := by
  induction l with
  | nil => rfl
  | cons a l ih =>
    cases h : p a with
    | true => rw [List.find?_cons_of_pos _ h, List.filter_cons_of_pos h]; rfl
    | false =>
      have h2 : ¬p a = true := by simp [h]
      rw [List.find?_cons_of_neg _ h2, List.filter_cons_of_neg h2, ih]

/-- `parseValue` only produces numbers, booleans or strings. -/
theorem parseValue_shape (s : String) :
    (∃ n e, parseValue s = .num n e) ∨ (∃ b, parseValue s = .bool b) ∨
    (∃ t, parseValue s = .str t) := by
  cases h : jsNumber? (stripQuotes s) with
  | some q => exact Or.inl ⟨q.1, q.2, by simp [parseValue, h]⟩
  | none =>
    by_cases h1 : stripQuotes s = "true"
    · exact Or.inr (Or.inl ⟨true, by rw [h1] at h; simp [parseValue, h, h1]⟩)
    · by_cases h2 : stripQuotes s = "false"
      · exact Or.inr (Or.inl ⟨false, by rw [h2] at h; simp [parseValue, h, h1, h2]⟩)
      · exact Or.inr (Or.inr ⟨stripQuotes s, by simp [parseValue, h, h1, h2]⟩)

/-! ## C1 -/

/-- C1: the claim states the operators are checked in the priority order
`==, !=, >=, <=, >, <`; the source iterates `['==', '!=', '>', '<', '>=', '<=']`,
so `>` is matched before `>=` and the two compound ordering operators are
unreachable.  On the condition `x >= 5` with `x = 5` the source evaluator
splits on `>` (right operand becomes the string `= 5`) and returns false,
while the evaluator with the operator order of the spec returns true. -/
theorem claimC1_operator_order :
    operators = ["==", "!=", ">", "<", ">=", "<="] ∧
    evaluateSimpleCondition "x >= 5" (.obj [("x", .num 5 0)]) = false ∧
    evaluateSimpleConditionWith specPriorityOperators "x >= 5" (.obj [("x", .num 5 0)]) = true :=
  ⟨rfl, by decide, by decide⟩

/-! ## C7 -/

/-- C7 counterexample: against the typed right operand `5`, the comparison
`!=` of a missing left path evaluates to true, not false: in JavaScript
`undefined != 5` is true, so not every comparison against a typed value
fails on a missing key. -/
theorem claimC7_counterexample :
    evaluateSimpleCondition "missing != 5" (.obj []) = true := by decide

/-- C7 (amended): the left operand is resolved by dotted path lookup
(`user.age` walks `context["user"]["age"]` with optional chaining), and a
missing left path (resolving to `undefined`) makes the comparisons
`==, >, <, >=, <=` against any parsed right operand evaluate to false,
while `!=` evaluates to true; in particular
`evaluate("missing > 5", {})` returns false without throwing. -/
theorem claimC7_missing_key :
    (∀ ctx : JsValue, getContextValue "user.age" ctx = getField (getField ctx "user") "age") ∧
    (∀ (s op : String), op ∈ ["==", ">", "<", ">=", "<="] →
      compareValues .undefined (parseValue s) op = false) ∧
    (∀ s : String, compareValues .undefined (parseValue s) "!=" = true) ∧
    evaluateSimpleCondition "missing > 5" (.obj []) = false := by
  refine ⟨fun ctx => rfl, ?_, ?_, by decide⟩
  · intro s op hop
    rcases parseValue_shape s with ⟨n, e, h⟩ | ⟨b, h⟩ | ⟨t, h⟩ <;> rw [h]
    · fin_cases hop <;> rfl
    · fin_cases hop <;> rfl
    · fin_cases hop <;>
        first
        | rfl
        | (cases hjs : jsNumber? t <;>
            simp [compareValues, jsLess?, toPrim, toNumber?, hjs])
  · intro s
    rcases parseValue_shape s with ⟨n, e, h⟩ | ⟨b, h⟩ | ⟨t, h⟩ <;> rw [h] <;> rfl

/-- C7 witness. -/
theorem claimC7_witness :
    getContextValue "user.age" (.obj [("user", .obj [("age", .num 3 0)])]) = .num 3 0 ∧
    compareValues .undefined (parseValue "5") ">" = false ∧
    compareValues .undefined (parseValue "5") "!=" = true :=
  ⟨by rw [claimC7_missing_key.1 (.obj [("user", .obj [("age", .num 3 0)])])]; rfl,
   claimC7_missing_key.2.1 "5" ">" (by decide),
   claimC7_missing_key.2.2.1 "5"⟩

/-! ## C8 -/

/-- C8 counterexample: the quoted literal `"true"` is not kept as the
string literal true; the source removes the quotes and then parses the
boolean, returning the boolean true. -/
theorem claimC8_counterexample :
    parseValue "\"true\"" = .bool true ∧ parseValue "\"true\"" ≠ .str "true" :=
  ⟨rfl, fun h => JsValue.noConfusion h⟩

/-- C8 (amended): every single and double quote character is removed from
the right operand string, wherever it occurs (not only surrounding
quotes); the remaining string is then parsed as a number when
`Number` accepts it, else as boolean true or false, else kept as a
string — so quoting never protects a numeral or a boolean word from
being typed. -/
theorem claimC8_parse_value :
    (∀ s : String, (stripQuotes s).data.all (fun c => !(c == '"' || c.toNat == 39)) = true) ∧
    (∀ (s : String) (n : Int) (e : Nat), jsNumber? (stripQuotes s) = some (n, e) →
      parseValue s = .num n e) ∧
    (∀ s : String, jsNumber? (stripQuotes s) = none → stripQuotes s = "true" →
      parseValue s = .bool true) ∧
    (∀ s : String, jsNumber? (stripQuotes s) = none → stripQuotes s = "false" →
      parseValue s = .bool false) ∧
    (∀ s : String, jsNumber? (stripQuotes s) = none → stripQuotes s ≠ "true" →
      stripQuotes s ≠ "false" → parseValue s = .str (stripQuotes s)) := by
  refine ⟨?_, ?_, ?_, ?_, ?_⟩
  · intro s
    simp only [List.all_eq_true]
    intro c hc
    exact (List.mem_filter.mp hc).2
  · intro s n e h
    simp [parseValue, h]
  · intro s h h1
    rw [h1] at h
    simp [parseValue, h, h1]
  · intro s h h1
    rw [h1] at h
    simp [parseValue, h, h1]
  · intro s h h1 h2
    simp [parseValue, h, h1, h2]

/-- C8 witness. -/
theorem claimC8_witness :
    parseValue "42" = .num 42 0 ∧ parseValue "tr\"ue" = .bool true ∧
    parseValue "abc" = .str "abc" :=
  ⟨claimC8_parse_value.2.1 "42" 42 0 (by rfl),
   claimC8_parse_value.2.2.1 "tr\"ue" (by rfl) (by rfl),
   claimC8_parse_value.2.2.2.2 "abc" (by rfl) (by decide) (by decide)⟩

/-! ## C9 -/

/-- C9: an edge target that matches no node id returns the input context
unchanged with the state untouched (no result entry, no log entry) and
the outcome is a normal return, not an error. -/
theorem claimC9_dangling_edge :
    ∀ (env : Env) (nodes : List Node) (edges : List Edge) (fuel : Nat)
      (targetId : String) (context : JsValue) (st : ExecState),
      nodes.find? (fun n => n.id == targetId) = none →
      executeNode env nodes edges (fuel + 1) targetId context st = (.ok context, st) := by
  intro env nodes edges fuel targetId context st h
  simp [executeNode, h]

/-- C9 witness. -/
theorem claimC9_witness :
    executeNode envC c4nodes [] 4 "ghost" (.obj [("k", .num 1 0)]) ⟨[], []⟩ =
      (.ok (.obj [("k", .num 1 0)]), ⟨[], []⟩) :=
  claimC9_dangling_edge envC c4nodes [] 3 "ghost" (.obj [("k", .num 1 0)]) ⟨[], []⟩ (by rfl)

/-! ## C5 -/

/-- C5: a graph without a trigger family node makes the run throw the
no trigger error; the persisted Execution record carries status failed and
the error message, the status trace shows the single transition from
running to failed, and the same error is surfaced to the caller. -/
theorem claimC5_no_trigger :
    ∀ (env : Env) (fuel : Nat) (nodes : List Node) (edges : List Edge),
      (∀ n ∈ nodes, isTriggerNode n = false) →
      (executeAgentWorkflow env fuel nodes edges).outcome = .thrown "No trigger node found" ∧
      (executeAgentWorkflow env fuel nodes edges).exec.status = "failed" ∧
      (executeAgentWorkflow env fuel nodes edges).exec.error = some "No trigger node found" ∧
      (executeAgentWorkflow env fuel nodes edges).statusTrace = ["running", "failed"] := by
  intro env fuel nodes edges h
  have hfind : nodes.find? isTriggerNode = none := by
    rw [List.find?_eq_none]
    intro n hn
    simp [h n hn]
  simp [executeAgentWorkflow, execute, tryExecute, hfind]

/-- C5 witness. -/
theorem claimC5_witness :
    (executeAgentWorkflow envC 3 [nonTriggerNode] []).outcome = .thrown "No trigger node found" ∧
    (executeAgentWorkflow envC 3 [nonTriggerNode] []).exec.status = "failed" ∧
    (executeAgentWorkflow envC 3 [nonTriggerNode] []).exec.error = some "No trigger node found" ∧
    (executeAgentWorkflow envC 3 [nonTriggerNode] []).statusTrace = ["running", "failed"] :=
  claimC5_no_trigger envC 3 [nonTriggerNode] [] (by decide)

/-! ## C3 -/

/-- C3 counterexample: for a node whose url lives in `node.data` (as the
claim describes the request) the injected client would succeed on the
described request, yet the handler returns the empty context unchanged —
no `{status, data, headers}` block is merged under any response key,
because part_001 reads the url from the top level of the node and the
actual request fails. -/
theorem claimC3_counterexample :
    apiCallNode client3 apiNodeT (.obj []) = .obj [] ∧
    client3 ⟨.str "GET", .str "http://x", .obj [], .obj []⟩ = .ok ⟨200, .str "d", .obj []⟩ :=
  ⟨rfl, rfl⟩

/-- C3 (amended): the api call handler issues the HTTP request described
by the top level fields `node.{url, method, body, headers}` (method
defaulting to GET, body and headers to empty objects); on success it
merges only the response body into the context under the key `apiResult`;
on failure it logs the error and returns the input context unchanged, so
the workflow continues. -/
theorem claimC3_api_call :
    ∀ (client : HttpReq → Except String HttpResp) (node : Node) (context : JsValue),
      (∀ r, client (apiReqOf node) = .ok r →
        apiCallNode client node context = jsSet context "apiResult" r.data) ∧
      (∀ m, client (apiReqOf node) = .error m → apiCallNode client node context = context) := by
  intro client node context
  constructor
  · intro r h
    simp [apiCallNode, h]
  · intro m h
    simp [apiCallNode, h]

/-- C3 witness. -/
theorem claimC3_witness :
    apiCallNode client3 apiNodeTop (.obj []) = jsSet (.obj []) "apiResult" (.str "d") ∧
    apiCallNode client3 apiNodeT (.obj []) = .obj [] :=
  ⟨(claimC3_api_call client3 apiNodeTop (.obj [])).1 ⟨200, .str "d", .obj []⟩ (by rfl),
   (claimC3_api_call client3 apiNodeT (.obj [])).2 "ECONNREFUSED" (by rfl)⟩

/-! ## Thrown message lemmas (the walker can only throw the label TypeErrors) -/

/-- The only errors `getLabel?` raises are the two label TypeErrors. -/
theorem getLabel?_msg (n : Node) (m : String) (h : getLabel? n = .error m) :
    m = "Cannot read properties of undefined (reading label)" ∨
    m = "Cannot read properties of null (reading label)" := by
  cases hd : n.data
  case undefined => rw [getLabel?, hd] at h; exact Or.inl (Except.error.inj h).symm
  case null => rw [getLabel?, hd] at h; exact Or.inr (Except.error.inj h).symm
  all_goals rw [getLabel?, hd] at h; exact Except.noConfusion h

/-- Errors thrown out of the edge loop come from its step function. -/
theorem runEdges_thrown {P : String → Prop}
    (step : String → JsValue → ExecState → Outcome JsValue × ExecState)
    (hstep : ∀ t c s m, (step t c s).1 = .thrown m → P m) :
    ∀ (l : List Edge) (res : JsValue) (st : ExecState) (m : String),
      (runEdges step l res st).1 = .thrown m → P m := by
  intro l
  induction l with
  | nil => intro res st m h; simp [runEdges] at h
  | cons e rest ih =>
    intro res st m h
    simp only [runEdges] at h
    cases hs : step e.target res st with
    | mk o s2 =>
      rw [hs] at h
      cases o with
      | ok a => exact ih res s2 m (by simpa using h)
      | thrown m2 =>
        simp at h
        exact h ▸ hstep e.target res st m2 (by rw [hs])
      | fuelOut => simp at h

/-- Every error thrown out of the walker is one of the two label
TypeErrors. -/
theorem executeNode_thrown_msg (env : Env) (nodes : List Node) (edges : List Edge) :
    ∀ (fuel : Nat) (nodeId : String) (ctx : JsValue) (st : ExecState) (m : String),
      (executeNode env nodes edges fuel nodeId ctx st).1 = .thrown m →
      m = "Cannot read properties of undefined (reading label)" ∨
      m = "Cannot read properties of null (reading label)" := by
  intro fuel
  induction fuel with
  | zero => intro nodeId ctx st m h; simp [executeNode] at h
  | succ n ih =>
    intro nodeId ctx st m h
    simp only [executeNode] at h
    cases hf : nodes.find? (fun nd => nd.id == nodeId) with
    | none => rw [hf] at h; simp at h
    | some node =>
      rw [hf] at h
      simp only at h
      cases hl : getLabel? node with
      | error m2 =>
        rw [hl] at h
        simp at h
        exact h ▸ getLabel?_msg node m2 hl
      | ok lbl =>
        rw [hl] at h
        simp only at h
        cases hd : dispatch env node ctx
            (pushLog st "info" ("Executing node: " ++ jsDisplay (jsOr lbl (.str node.type)))) with
        | mk result st2 =>
          rw [hd] at h
          simp only at h
          exact runEdges_thrown _ (fun t c s m2 hm => ih t c s m2 hm) _ _ _ m h

/-- Errors thrown after the trigger was found are label TypeErrors, never
the no trigger error. -/
theorem runFromTrigger_thrown (env : Env) (nodes : List Node) (edges : List Edge)
    (fuel : Nat) (t : Node) (st : ExecState) (m : String)
    (h : (runFromTrigger env nodes edges fuel t st).1 = .thrown m) :
    m = "Cannot read properties of undefined (reading label)" ∨
    m = "Cannot read properties of null (reading label)" := by
  simp only [runFromTrigger] at h
  cases hl : getLabel? t with
  | error m2 =>
    rw [hl] at h
    simp at h
    exact h ▸ getLabel?_msg t m2 hl
  | ok lbl =>
    rw [hl] at h
    simp only at h
    cases he : executeNode env nodes edges fuel t.id (.obj [])
        (pushLog st "info" ("Trigger found: " ++ jsDisplay (jsOr lbl (.str t.type)))) with
    | mk o s2 =>
      rw [he] at h
      cases o with
      | ok r => simp at h
      | thrown m2 =>
        simp at h
        exact h ▸ executeNode_thrown_msg env nodes edges fuel t.id _ _ m2 (by rw [he])
      | fuelOut => simp at h

/-! ## C10 -/

/-- C10: with more than one trigger family node, `execute` never raises the
no trigger error and the try block is exactly the run started from the
first trigger family node in nodes array order — the later trigger nodes
are never used as entry points, because trigger uniqueness is never
checked and `Array.find` returns the first match. -/
theorem claimC10_multiple_triggers :
    ∀ (env : Env) (nodes : List Node) (edges : List Edge) (fuel : Nat) (st : ExecState)
      (t1 t2 : Node) (rest : List Node),
      nodes.filter isTriggerNode = t1 :: t2 :: rest →
      tryExecute env nodes edges fuel st = runFromTrigger env nodes edges fuel t1 st ∧
      (execute env nodes edges fuel st).1 ≠ .thrown "No trigger node found" := by
  intro env nodes edges fuel st t1 t2 rest hfil
  have hfind : nodes.find? isTriggerNode = some t1 := by
    rw [find_eq_filter_head, hfil]; rfl
  constructor
  · simp [tryExecute, hfind]
  · intro hcon
    simp only [execute] at hcon
    have h1 : tryExecute env nodes edges fuel (pushLog st "info" "Starting agent execution") =
        runFromTrigger env nodes edges fuel t1 (pushLog st "info" "Starting agent execution") := by
      simp [tryExecute, hfind]
    rw [h1] at hcon
    cases hr : runFromTrigger env nodes edges fuel t1
        (pushLog st "info" "Starting agent execution") with
    | mk o s2 =>
      rw [hr] at hcon
      cases o with
      | ok r => simp at hcon
      | fuelOut => simp at hcon
      | thrown m =>
        simp at hcon
        rcases runFromTrigger_thrown env nodes edges fuel t1 _ m (by rw [hr]) with h2 | h2 <;>
          (rw [hcon] at h2; exact absurd h2 (by decide))

/-- C10 witness. -/
theorem claimC10_witness :
    tryExecute envC c10nodes [] 3 ⟨[], []⟩ =
      runFromTrigger envC c10nodes [] 3 ⟨"t1", "trigger", .obj [], []⟩ ⟨[], []⟩ ∧
    (execute envC c10nodes [] 3 ⟨[], []⟩).1 ≠ .thrown "No trigger node found" :=
  claimC10_multiple_triggers envC c10nodes [] 3 ⟨[], []⟩ ⟨"t1", "trigger", .obj [], []⟩
    ⟨"t2", "webhookTrigger", .obj [], []⟩ [] (by rfl)

/-! ## C2 -/

/-- C2: on the concrete graph `t -> c` with condition node `c` having the
two outgoing edges `c -> a` and `c -> b` and a false condition, the claim
says only the second edge is followed; the run instead appends result
entries for the trigger, the condition node, and BOTH successors, in edge
order, each successor receiving the context with `conditionResult` merged
as false — the walker follows every outgoing edge of a condition node and
never consults the boolean for edge selection. -/
theorem claimC2_condition_fanout :
    resultNodeIds (executeAgentWorkflow envC 5 c2nodes c2edges) =
      [.str "t", .str "c", .str "a", .str "b"] ∧
    getField (getField ((executeAgentWorkflow envC 5 c2nodes c2edges).exec.results.getD 2 .null)
      "result") "conditionResult" = .bool false ∧
    getField (getField ((executeAgentWorkflow envC 5 c2nodes c2edges).exec.results.getD 3 .null)
      "result") "conditionResult" = .bool false :=
  ⟨rfl, rfl, rfl⟩

/-! ## C6 -/

/-- Composition of `execute` through a found trigger with a readable label:
the run is the walk from the trigger wrapped by the completion log and the
catch log. -/
theorem execute_eq (env : Env) (nodes : List Node) (edges : List Edge) (fuel : Nat)
    (st : ExecState) (t : Node) (hfind : nodes.find? isTriggerNode = some t)
    (lbl : JsValue) (hl : getLabel? t = .ok lbl) :
    execute env nodes edges fuel st =
      match executeNode env nodes edges fuel t.id (.obj [])
          (pushLog (pushLog st "info" "Starting agent execution") "info"
            ("Trigger found: " ++ jsDisplay (jsOr lbl (.str t.type)))) with
      | (.ok r, st2) => (.ok r, pushLog st2 "info" "Agent execution completed successfully")
      | (.thrown m, st2) => (.thrown m, pushLog st2 "error" "Agent execution failed")
      | (.fuelOut, st2) => (.fuelOut, st2) := by
  simp only [execute, tryExecute, hfind, runFromTrigger, hl]
  cases hx : executeNode env nodes edges fuel t.id (.obj [])
      (pushLog (pushLog st "info" "Starting agent execution") "info"
        ("Trigger found: " ++ jsDisplay (jsOr lbl (.str t.type)))) with
  | mk o s2 => cases o <;> simp

/-- A first edge whose step runs out of fuel makes the whole loop run out
of fuel. -/
theorem runEdges_fuelOut_head
    (step : String → JsValue → ExecState → Outcome JsValue × ExecState)
    (e : Edge) (rest : List Edge) (res : JsValue) (st : ExecState)
    (h : (step e.target res st).1 = .fuelOut) :
    (runEdges step (e :: rest) res st).1 = .fuelOut := by
  simp only [runEdges]
  cases hs : step e.target res st with
  | mk o s2 =>
    rw [hs] at h
    cases o <;> simp_all

/-- On the cyclic graph, the walk from the self looping node never
finishes: every fuel is exhausted. -/
theorem cyc_a_fuelOut :
    ∀ (fuel : Nat) (ctx : JsValue) (st : ExecState),
      (executeNode envC cycNodes cycEdges fuel "a" ctx st).1 = .fuelOut := by
  intro fuel
  induction fuel with
  | zero => intro ctx st; rfl
  | succ n ih =>
    intro ctx st
    exact runEdges_fuelOut_head _ ⟨"e2", "a", "a"⟩ [] ctx _ (ih ctx _)

/-- On the cyclic graph, the walk from the trigger never finishes. -/
theorem cyc_t_fuelOut :
    ∀ (n : Nat) (ctx : JsValue) (st : ExecState),
      (executeNode envC cycNodes cycEdges (n + 1) "t" ctx st).1 = .fuelOut := by
  intro n ctx st
  exact runEdges_fuelOut_head _ ⟨"e1", "t", "a"⟩ [] _ _ (cyc_a_fuelOut n _ _)

/-- On the cyclic graph, `execute` runs out of fuel for every fuel. -/
theorem cyc_execute_fuelOut :
    ∀ (fuel : Nat) (st : ExecState),
      (execute envC cycNodes cycEdges fuel st).1 = .fuelOut := by
  intro fuel st
  rw [execute_eq envC cycNodes cycEdges fuel st ⟨"t", "trigger", .obj [], []⟩ rfl .undefined rfl]
  cases fuel with
  | zero =>
    rfl
  | succ n =>
    have h := cyc_t_fuelOut n (.obj [])
      (pushLog (pushLog st "info" "Starting agent execution") "info"
        ("Trigger found: " ++ jsDisplay (jsOr .undefined (.str "trigger"))))
    cases he : executeNode envC cycNodes cycEdges (n + 1) "t" (.obj [])
        (pushLog (pushLog st "info" "Starting agent execution") "info"
          ("Trigger found: " ++ jsDisplay (jsOr .undefined (.str "trigger")))) with
    | mk o s2 =>
      rw [he] at h
      simp at h
      subst h
      simp [he]

/-- C6 counterexample: the cyclic graph `t -> a`, `a -> a` has exactly one
trigger family node (and no condition node at all, hence no unreachable
condition branch), yet `executeWorkflow` does not terminate: every fuel
bound is exhausted, which models the unbounded recursion of the source
walker on a cycle. -/
theorem claimC6_counterexample :
    (cycNodes.filter isTriggerNode).length = 1 ∧
    ¬ workflowTerminates envC cycNodes cycEdges := by
  refine ⟨rfl, ?_⟩
  rintro ⟨fuel, hne⟩
  apply hne
  have h := cyc_execute_fuelOut fuel ⟨[], []⟩
  unfold executeAgentWorkflow
  cases hE : execute envC cycNodes cycEdges fuel ⟨[], []⟩ with
  | mk o s2 =>
    rw [hE] at h
    simp at h
    subst h
    rfl

/-- The edge loop cannot run out of fuel when none of its steps can. -/
theorem runEdges_ne_fuelOut
    (step : String → JsValue → ExecState → Outcome JsValue × ExecState) :
    ∀ (l : List Edge),
      (∀ e ∈ l, ∀ c s, (step e.target c s).1 ≠ .fuelOut) →
      ∀ res st, (runEdges step l res st).1 ≠ .fuelOut := by
  intro l
  induction l with
  | nil => intro _ res st h; simp [runEdges] at h
  | cons e rest ih =>
    intro hstep res st h
    simp only [runEdges] at h
    cases hs : step e.target res st with
    | mk o s2 =>
      rw [hs] at h
      cases o with
      | ok a => exact ih (fun e2 he2 c s => hstep e2 (by simp [he2]) c s) res s2 (by simpa using h)
      | thrown m => simp at h
      | fuelOut => exact hstep e (by simp) res st (by rw [hs])

/-- With a rank function that strictly decreases along every edge (a
certificate that the graph is acyclic), fuel above the rank of the start
node never runs out. -/
theorem executeNode_ne_fuelOut (env : Env) (nodes : List Node) (edges : List Edge)
    (rank : String → Nat) (hrank : ∀ e ∈ edges, rank e.target < rank e.source) :
    ∀ (fuel : Nat) (nodeId : String), rank nodeId < fuel → ∀ ctx st,
      (executeNode env nodes edges fuel nodeId ctx st).1 ≠ .fuelOut := by
  intro fuel
  induction fuel with
  | zero => intro nodeId h; exact absurd h (Nat.not_lt_zero _)
  | succ n ih =>
    intro nodeId hlt ctx st h
    simp only [executeNode] at h
    cases hf : nodes.find? (fun nd => nd.id == nodeId) with
    | none => rw [hf] at h; simp at h
    | some node =>
      rw [hf] at h
      simp only at h
      cases hl : getLabel? node with
      | error m => rw [hl] at h; simp at h
      | ok lbl =>
        rw [hl] at h
        simp only at h
        cases hd : dispatch env node ctx
            (pushLog st "info" ("Executing node: " ++ jsDisplay (jsOr lbl (.str node.type)))) with
        | mk result st2 =>
          rw [hd] at h
          simp only at h
          refine runEdges_ne_fuelOut _ (edges.filter (fun e => e.source == nodeId)) ?_
            result (pushResult st2 (mkResultObj node result)) h
          intro e he c s
          obtain ⟨hmem, hsrc⟩ := List.mem_filter.mp he
          have hts : rank e.target < rank e.source := hrank e hmem
          rw [eq_of_beq hsrc] at hts
          exact ih e.target (by omega) c s

/-- C6 (amended): for every graph with exactly one trigger family node
whose edges admit a strictly decreasing rank (an acyclicity certificate;
the claim fails on cyclic graphs, see the counterexample), some fuel
suffices: the run terminates, the Execution ends completed or failed and
never stays running, and the status trace is the single terminal
transition running to completed or running to failed, never touched again. -/
theorem claimC6_terminal_status :
    ∀ (env : Env) (nodes : List Node) (edges : List Edge) (rank : String → Nat),
      (∀ e ∈ edges, rank e.target < rank e.source) →
      (nodes.filter isTriggerNode).length = 1 →
      ∃ fuel,
        (executeAgentWorkflow env fuel nodes edges).outcome ≠ .fuelOut ∧
        (((executeAgentWorkflow env fuel nodes edges).exec.status = "completed" ∧
          (executeAgentWorkflow env fuel nodes edges).statusTrace = ["running", "completed"]) ∨
         ((executeAgentWorkflow env fuel nodes edges).exec.status = "failed" ∧
          (executeAgentWorkflow env fuel nodes edges).statusTrace = ["running", "failed"])) := by
  intro env nodes edges rank hrank hone
  obtain ⟨t, ht⟩ := List.length_eq_one.mp hone
  have hfind : nodes.find? isTriggerNode = some t := by
    rw [find_eq_filter_head, ht]; rfl
  refine ⟨rank t.id + 1, ?_⟩
  cases hl : getLabel? t with
  | error m =>
    have hx : execute env nodes edges (rank t.id + 1) ⟨[], []⟩ =
        (.thrown m, pushLog (pushLog ⟨[], []⟩ "info" "Starting agent execution")
          "error" "Agent execution failed") := by
      simp only [execute, tryExecute, hfind, runFromTrigger, hl]
    refine ⟨by simp [executeAgentWorkflow, hx], Or.inr ?_⟩
    constructor <;> simp [executeAgentWorkflow, hx]
  | ok lbl =>
    have heq := execute_eq env nodes edges (rank t.id + 1) ⟨[], []⟩ t hfind lbl hl
    have hnf := executeNode_ne_fuelOut env nodes edges rank hrank (rank t.id + 1) t.id
      (by omega) (.obj [])
      (pushLog (pushLog ⟨[], []⟩ "info" "Starting agent execution") "info"
        ("Trigger found: " ++ jsDisplay (jsOr lbl (.str t.type))))
    cases hX : executeNode env nodes edges (rank t.id + 1) t.id (.obj [])
        (pushLog (pushLog ⟨[], []⟩ "info" "Starting agent execution") "info"
          ("Trigger found: " ++ jsDisplay (jsOr lbl (.str t.type)))) with
    | mk o s2 =>
      rw [hX] at heq hnf
      cases o with
      | ok r =>
        simp only at heq
        refine ⟨by simp [executeAgentWorkflow, heq], Or.inl ?_⟩
        constructor <;> simp [executeAgentWorkflow, heq]
      | thrown m =>
        simp only at heq
        refine ⟨by simp [executeAgentWorkflow, heq], Or.inr ?_⟩
        constructor <;> simp [executeAgentWorkflow, heq]
      | fuelOut => simp at hnf

/-- C6 witness. -/
theorem claimC6_witness :
    ∃ fuel,
      (executeAgentWorkflow envC fuel c4nodes []).outcome ≠ .fuelOut ∧
      (((executeAgentWorkflow envC fuel c4nodes []).exec.status = "completed" ∧
        (executeAgentWorkflow envC fuel c4nodes []).statusTrace = ["running", "completed"]) ∨
       ((executeAgentWorkflow envC fuel c4nodes []).exec.status = "failed" ∧
        (executeAgentWorkflow envC fuel c4nodes []).statusTrace = ["running", "failed"])) :=
  claimC6_terminal_status envC c4nodes [] (fun _ => 0) (by simp) (by rfl)

/-! ## C4 -/

/-- The handler dispatch never touches the results list (the unknown type
branch only appends a warning log). -/
theorem dispatch_results (env : Env) (node : Node) (ctx : JsValue) (st : ExecState) :
    (dispatch env node ctx st).2.results = st.results := by
  unfold dispatch
  split <;> rfl

/-- The pushed result object always has the four keys of the source
literal. -/
theorem mkResultObj_shape (n : Node) (res : JsValue) :
    isNodeResultObj (mkResultObj n res) = true := rfl

/-- The edge loop only appends to the results its steps append to. -/
theorem runEdges_results_append
    (step : String → JsValue → ExecState → Outcome JsValue × ExecState) :
    ∀ (l : List Edge),
      (∀ t c s, ∃ tail, (step t c s).2.results = s.results ++ tail) →
      ∀ res st, ∃ tail, (runEdges step l res st).2.results = st.results ++ tail := by
  intro l
  induction l with
  | nil => intro _ res st; exact ⟨[], by simp [runEdges]⟩
  | cons e rest ih =>
    intro hstep res st
    cases hs : step e.target res st with
    | mk o s2 =>
      obtain ⟨t1, ht1⟩ := hstep e.target res st
      rw [hs] at ht1
      simp only at ht1
      cases o with
      | ok a =>
        obtain ⟨t2, ht2⟩ := ih hstep res s2
        refine ⟨t1 ++ t2, ?_⟩
        simp only [runEdges, hs]
        rw [ht2, ht1, List.append_assoc]
      | thrown m => exact ⟨t1, by simp only [runEdges, hs]; exact ht1⟩
      | fuelOut => exact ⟨t1, by simp only [runEdges, hs]; exact ht1⟩

/-- The walker only appends to the results list: whatever the outcome
(normal return, thrown error, or fuel exhaustion), the results of the
incoming state form a prefix of the final results. -/
theorem executeNode_results_append (env : Env) (nodes : List Node) (edges : List Edge) :
    ∀ (fuel : Nat) (nodeId : String) (ctx : JsValue) (st : ExecState),
      ∃ tail, (executeNode env nodes edges fuel nodeId ctx st).2.results = st.results ++ tail := by
  intro fuel
  induction fuel with
  | zero => intro nodeId ctx st; exact ⟨[], by simp [executeNode]⟩
  | succ n ih =>
    intro nodeId ctx st
    cases hf : nodes.find? (fun nd => nd.id == nodeId) with
    | none => exact ⟨[], by simp [executeNode, hf]⟩
    | some node =>
      cases hl : getLabel? node with
      | error m => exact ⟨[], by simp [executeNode, hf, hl]⟩
      | ok lbl =>
        cases hd : dispatch env node ctx
            (pushLog st "info" ("Executing node: " ++ jsDisplay (jsOr lbl (.str node.type)))) with
        | mk result st2 =>
          have hd2 : st2.results = st.results := by
            have h3 := dispatch_results env node ctx
              (pushLog st "info" ("Executing node: " ++ jsDisplay (jsOr lbl (.str node.type))))
            rw [hd] at h3
            exact h3
          obtain ⟨tail, htail⟩ := runEdges_results_append _
            (edges.filter (fun e => e.source == nodeId)) (fun t c s => ih t c s)
            result (pushResult st2 (mkResultObj node result))
          refine ⟨mkResultObj node result :: tail, ?_⟩
          simp only [executeNode, hf, hl, hd]
          rw [htail]
          simp [pushResult, hd2]

/-- When the edge loop completes normally, the number of appended results
is the sum over the edges of the number its step appends. -/
theorem runEdges_length
    (step : String → JsValue → ExecState → Outcome JsValue × ExecState) (f : String → Nat) :
    ∀ (l : List Edge),
      (∀ t c s v, (step t c s).1 = .ok v →
        (step t c s).2.results.length = s.results.length + f t) →
      ∀ res st v, (runEdges step l res st).1 = .ok v →
        (runEdges step l res st).2.results.length =
          st.results.length + (l.map (fun e => f e.target)).sum := by
  intro l
  induction l with
  | nil => intro _ res st v h; simp [runEdges]
  | cons e rest ih =>
    intro hstep res st v h
    simp only [runEdges] at h ⊢
    cases hs : step e.target res st with
    | mk o s2 =>
      rw [hs] at h
      cases o with
      | ok a =>
        have h3 : (runEdges step rest res s2).1 = .ok v := by simpa using h
        have h2 := hstep e.target res st a (by rw [hs])
        rw [hs] at h2
        simp only at h2
        have h4 := ih hstep res s2 v h3
        show (runEdges step rest res s2).2.results.length =
          st.results.length + ((e :: rest).map (fun e2 => f e2.target)).sum
        rw [h4, h2]
        simp only [List.map_cons, List.sum_cons]
        omega
      | thrown m => simp at h
      | fuelOut => simp at h

/-- When the walk completes normally, the number of appended result
entries equals the number of node visits performed. -/
theorem executeNode_length (env : Env) (nodes : List Node) (edges : List Edge) :
    ∀ (fuel : Nat) (nodeId : String) (ctx : JsValue) (st : ExecState) (v : JsValue),
      (executeNode env nodes edges fuel nodeId ctx st).1 = .ok v →
      (executeNode env nodes edges fuel nodeId ctx st).2.results.length =
        st.results.length + visitCount nodes edges fuel nodeId := by
  intro fuel
  induction fuel with
  | zero => intro nodeId ctx st v h; simp [executeNode] at h
  | succ n ih =>
    intro nodeId ctx st v h
    cases hf : nodes.find? (fun nd => nd.id == nodeId) with
    | none => simp [executeNode, hf, visitCount]
    | some node =>
      cases hl : getLabel? node with
      | error m => simp [executeNode, hf, hl] at h
      | ok lbl =>
        cases hd : dispatch env node ctx
            (pushLog st "info" ("Executing node: " ++ jsDisplay (jsOr lbl (.str node.type)))) with
        | mk result st2 =>
          have hd2 : st2.results = st.results := by
            have h3 := dispatch_results env node ctx
              (pushLog st "info" ("Executing node: " ++ jsDisplay (jsOr lbl (.str node.type))))
            rw [hd] at h3
            exact h3
          simp only [executeNode, hf, hl, hd] at h ⊢
          rw [runEdges_length _ (fun t => visitCount nodes edges n t) _
            (fun t c s v2 hv => ih t c s v2 hv) result
            (pushResult st2 (mkResultObj node result)) v h]
          simp [pushResult, hd2, visitCount, hf]
          omega

/-- Entries of the results list after the edge loop are either old or have
the pushed result shape, provided the steps preserve this. -/
theorem runEdges_mem
    (step : String → JsValue → ExecState → Outcome JsValue × ExecState) :
    ∀ (l : List Edge),
      (∀ t c s r, r ∈ (step t c s).2.results → r ∈ s.results ∨ isNodeResultObj r = true) →
      ∀ res st r, r ∈ (runEdges step l res st).2.results →
        r ∈ st.results ∨ isNodeResultObj r = true := by
  intro l
  induction l with
  | nil => intro _ res st r h; simp only [runEdges] at h; exact Or.inl h
  | cons e rest ih =>
    intro hstep res st r h
    simp only [runEdges] at h
    cases hs : step e.target res st with
    | mk o s2 =>
      rw [hs] at h
      cases o with
      | ok a =>
        rcases ih hstep res s2 r (by simpa using h) with h2 | h2
        · exact hstep e.target res st r (by rw [hs]; exact h2)
        · exact Or.inr h2
      | thrown m => exact hstep e.target res st r (by rw [hs]; simpa using h)
      | fuelOut => exact hstep e.target res st r (by rw [hs]; simpa using h)

/-- Every entry the walk adds to the results list is a result object with
exactly the keys nodeId, nodeType, nodeLabel and result. -/
theorem executeNode_mem (env : Env) (nodes : List Node) (edges : List Edge) :
    ∀ (fuel : Nat) (nodeId : String) (ctx : JsValue) (st : ExecState) (r : JsValue),
      r ∈ (executeNode env nodes edges fuel nodeId ctx st).2.results →
      r ∈ st.results ∨ isNodeResultObj r = true := by
  intro fuel
  induction fuel with
  | zero => intro nodeId ctx st r h; simp only [executeNode] at h; exact Or.inl h
  | succ n ih =>
    intro nodeId ctx st r h
    cases hf : nodes.find? (fun nd => nd.id == nodeId) with
    | none => simp only [executeNode, hf] at h; exact Or.inl h
    | some node =>
      cases hl : getLabel? node with
      | error m => simp only [executeNode, hf, hl] at h; exact Or.inl h
      | ok lbl =>
        cases hd : dispatch env node ctx
            (pushLog st "info" ("Executing node: " ++ jsDisplay (jsOr lbl (.str node.type)))) with
        | mk result st2 =>
          have hd2 : st2.results = st.results := by
            have h3 := dispatch_results env node ctx
              (pushLog st "info" ("Executing node: " ++ jsDisplay (jsOr lbl (.str node.type))))
            rw [hd] at h3
            exact h3
          simp only [executeNode, hf, hl, hd] at h
          rcases runEdges_mem _ (edges.filter (fun e => e.source == nodeId))
            (fun t c s r2 h2 => ih t c s r2 h2) result
            (pushResult st2 (mkResultObj node result)) r h with h2 | h2
          · simp only [pushResult, hd2, List.mem_append] at h2
            rcases h2 with h3 | h3
            · exact Or.inl h3
            · simp only [List.mem_singleton] at h3
              exact Or.inr (h3 ▸ mkResultObj_shape node result)
          · exact Or.inr h2

/-- C4 (amended): after every node executes, a result object containing
nodeId, nodeType, label and result — but no timestamp — is appended to the
Execution before any successor runs (the appended entry of a visited node
precedes every entry of its successors); for runs that complete normally
the number of result entries equals the number of node visits performed
(including repeated visits); the results list only grows, so no result of
an already executed node is dropped when a later node fails; and every
appended entry has exactly those four keys. -/
theorem claimC4_results :
    (∀ (env : Env) (nodes : List Node) (edges : List Edge) (fuel : Nat)
       (nodeId : String) (ctx : JsValue) (st : ExecState),
       ∃ tail, (executeNode env nodes edges fuel nodeId ctx st).2.results =
         st.results ++ tail) ∧
    (∀ (env : Env) (nodes : List Node) (edges : List Edge) (fuel : Nat)
       (nodeId : String) (ctx : JsValue) (st : ExecState) (node : Node) (lbl : JsValue),
       nodes.find? (fun nd => nd.id == nodeId) = some node →
       getLabel? node = .ok lbl →
       ∃ res tail, (executeNode env nodes edges (fuel + 1) nodeId ctx st).2.results =
         st.results ++ mkResultObj node res :: tail) ∧
    (∀ (env : Env) (nodes : List Node) (edges : List Edge) (fuel : Nat)
       (nodeId : String) (ctx : JsValue) (st : ExecState) (v : JsValue),
       (executeNode env nodes edges fuel nodeId ctx st).1 = .ok v →
       (executeNode env nodes edges fuel nodeId ctx st).2.results.length =
         st.results.length + visitCount nodes edges fuel nodeId) ∧
    (∀ (env : Env) (nodes : List Node) (edges : List Edge) (fuel : Nat)
       (nodeId : String) (ctx : JsValue) (st : ExecState) (r : JsValue),
       r ∈ (executeNode env nodes edges fuel nodeId ctx st).2.results →
       r ∈ st.results ∨ isNodeResultObj r = true) := by
  refine ⟨fun env nodes edges fuel nodeId ctx st =>
      executeNode_results_append env nodes edges fuel nodeId ctx st,
    ?_,
    fun env nodes edges fuel nodeId ctx st v h =>
      executeNode_length env nodes edges fuel nodeId ctx st v h,
    fun env nodes edges fuel nodeId ctx st r h =>
      executeNode_mem env nodes edges fuel nodeId ctx st r h⟩
  intro env nodes edges fuel nodeId ctx st node lbl hf hl
  cases hd : dispatch env node ctx
      (pushLog st "info" ("Executing node: " ++ jsDisplay (jsOr lbl (.str node.type)))) with
  | mk result st2 =>
    have hd2 : st2.results = st.results := by
      have h3 := dispatch_results env node ctx
        (pushLog st "info" ("Executing node: " ++ jsDisplay (jsOr lbl (.str node.type))))
      rw [hd] at h3
      exact h3
    obtain ⟨tail, htail⟩ := runEdges_results_append _
      (edges.filter (fun e => e.source == nodeId))
      (fun t c s => executeNode_results_append env nodes edges fuel t c s)
      result (pushResult st2 (mkResultObj node result))
    refine ⟨result, tail, ?_⟩
    simp only [executeNode, hf, hl, hd]
    rw [htail]
    simp [pushResult, hd2]

/-- C4 counterexample: on the single trigger graph the one appended result
entry is the object `{nodeId, nodeType, nodeLabel, result}` with no
timestamp key — `addResult` pushes exactly the four field literal, so the
claimed timestamp field does not exist. -/
theorem claimC4_counterexample :
    (executeAgentWorkflow envC 2 c4nodes []).exec.results =
      [.obj [("nodeId", .str "t"), ("nodeType", .str "trigger"), ("nodeLabel", .undefined),
             ("result", .obj [("triggeredAt", .str "TS0"), ("triggerType", .str "trigger"),
                              ("triggerData", .obj [])])]] ∧
    getField ((executeAgentWorkflow envC 2 c4nodes []).exec.results.headD .null)
      "timestamp" = .undefined :=
  ⟨rfl, rfl⟩

/-- C4 witness. -/
theorem claimC4_witness :
    (∃ tail, (executeNode envC c4nodes [] 2 "t" (.obj []) ⟨[], []⟩).2.results =
      (⟨[], []⟩ : ExecState).results ++ tail) ∧
    (∃ res tail, (executeNode envC c4nodes [] 2 "t" (.obj []) ⟨[], []⟩).2.results =
      (⟨[], []⟩ : ExecState).results ++
        mkResultObj ⟨"t", "trigger", .obj [], []⟩ res :: tail) ∧
    ((executeNode envC c4nodes [] 2 "t" (.obj []) ⟨[], []⟩).2.results.length =
      (⟨[], []⟩ : ExecState).results.length + visitCount c4nodes [] 2 "t") ∧
    ((.obj [("nodeId", .str "t"), ("nodeType", .str "trigger"), ("nodeLabel", .undefined),
            ("result", .obj [("triggeredAt", .str "TS0"), ("triggerType", .str "trigger"),
                             ("triggerData", .obj [])])] : JsValue) ∈
        (⟨[], []⟩ : ExecState).results ∨
      isNodeResultObj
        (.obj [("nodeId", .str "t"), ("nodeType", .str "trigger"), ("nodeLabel", .undefined),
               ("result", .obj [("triggeredAt", .str "TS0"), ("triggerType", .str "trigger"),
                                ("triggerData", .obj [])])]) = true) :=
  ⟨claimC4_results.1 envC c4nodes [] 2 "t" (.obj []) ⟨[], []⟩,
   claimC4_results.2.1 envC c4nodes [] 1 "t" (.obj []) ⟨[], []⟩
     ⟨"t", "trigger", .obj [], []⟩ .undefined (by rfl) (by rfl),
   claimC4_results.2.2.1 envC c4nodes [] 2 "t" (.obj []) ⟨[], []⟩
     (.obj [("triggeredAt", .str "TS0"), ("triggerType", .str "trigger"),
            ("triggerData", .obj [])]) (by rfl),
   claimC4_results.2.2.2 envC c4nodes [] 2 "t" (.obj []) ⟨[], []⟩
     (.obj [("nodeId", .str "t"), ("nodeType", .str "trigger"), ("nodeLabel", .undefined),
            ("result", .obj [("triggeredAt", .str "TS0"), ("triggerType", .str "trigger"),
                             ("triggerData", .obj [])])])
     (List.mem_singleton_self _)⟩
